import Mathlib

/-!
# sre-agent: the decide-and-act pipeline of `test-agent`

A shallow embedding of `src/test-agent/main.go`, `openai.go` and `querypromethues.go`.

* Go strings are modelled by `String` (text that is valid UTF-8).
* A value of type `interface{}` produced by `json.Unmarshal` is a `Value`; a
  `map[string]interface{}` is its list of entries, `delete` removes every entry with the key.
  Such a value is a tree without sharing, so the update in place that `cleanDeploymentYAML`
  performs is the function from the value before to the value after.
* Every call that leaves the process (cluster API, chat completion, HTTP) is recorded as an
  `Event` appended to a trace; what the outside world answers is a field of `Env` and may
  depend on the whole trace so far.
* A Go `error` is its message; `fmt.Errorf("...: %w", err)` is concatenation.
* Output on stdout and through `log.Print*` and the pauses of `time.Sleep` are left out;
  `log.Fatalf` ends the process and is modelled as such. The deadline of twenty seconds in
  `applyPatch` shows only as the error a Patch call may answer.
* Library functions (`encoding/json`, `yaml`, the non-ASCII part of the Unicode case tables)
  are fields of `Env`.
-/

namespace SreAgent

/-! ## Strings -/

/-- Go `unicode.IsSpace`: the Latin-1 white space and the `White_Space` property above it. -/
def unicodeIsSpace (r : Char) : Bool :=
  if r.toNat ≤ 0xFF then
    r.toNat = 0x09 || r.toNat = 0x0A || r.toNat = 0x0B || r.toNat = 0x0C || r.toNat = 0x0D ||
      r.toNat = 0x20 || r.toNat = 0x85 || r.toNat = 0xA0
  else
    r.toNat = 0x1680 || (0x2000 ≤ r.toNat && r.toNat ≤ 0x200A) || r.toNat = 0x2028 ||
      r.toNat = 0x2029 || r.toNat = 0x202F || r.toNat = 0x205F || r.toNat = 0x3000

/-- Go `strings.TrimSpace`: the text without its leading and trailing white space. -/
def stringsTrimSpace (s : String) : String :=
  ⟨(s.data.dropWhile unicodeIsSpace).rdropWhile unicodeIsSpace⟩

/-- Go `unicode.ToLower`: ASCII letters are shifted, every other ASCII rune is kept, and a
rune above ASCII is looked up in the case table of the library (`caseTable`). -/
def unicodeToLower (caseTable : Char → Char) (r : Char) : Char :=
  if r.toNat ≤ 0x7F then
    if 0x41 ≤ r.toNat ∧ r.toNat ≤ 0x5A then Char.ofNat (r.toNat + 0x20) else r
  else caseTable r

/-- Go `strings.ToLower`: every rune mapped by `unicode.ToLower`. -/
def stringsToLower (caseTable : Char → Char) (s : String) : String :=
  ⟨s.data.map (unicodeToLower caseTable)⟩

/-- The runes `substr` occur consecutively somewhere in the given runes. -/
def containsChars (substr : List Char) : List Char → Bool
  | [] => substr.isEmpty
  | c :: cs => substr.isPrefixOf (c :: cs) || containsChars substr cs

/-- Go `strings.Contains`. -/
def stringsContains (s substr : String) : Bool :=
  containsChars substr.data s.data

/-! ## Structural values and the manifest sanitizer -/

/-- What `json.Unmarshal` stores in an `interface{}`: `nil`, `bool`, `float64` (by its bit
pattern), `string`, `[]interface{}` and `map[string]interface{}`. -/
inductive Value where
  | null : Value
  | bool (b : Bool) : Value
  | number (bits : Nat) : Value
  | string (s : String) : Value
  | array (elems : List Value) : Value
  | object (fields : List (String × Value)) : Value

/-- Go `delete(m, key)`. -/
def mapDelete (m : List (String × Value)) (key : String) : List (String × Value) :=
  m.filter (fun kv => kv.1 != key)

/-- The seven `delete` statements at the head of `cleanDeploymentYAML`, in source order. -/
def deleteExcluded (m : List (String × Value)) : List (String × Value) :=
  mapDelete (mapDelete (mapDelete (mapDelete (mapDelete (mapDelete (mapDelete m
    "status") "resourceVersion") "uid") "creationTimestamp") "generation")
    "managedFields") "annotations"

/-- `cleanDeploymentYAML` (main.go 86-106): on a map the seven keys are deleted and every
remaining value is replaced by its cleaned form; on a slice every element is replaced by its
cleaned form; anything else is returned as it is. -/
def cleanDeploymentYAML : Value → Value
  | .object m =>
      .object ((deleteExcluded m).attach.map
        (fun kv => (kv.1.1, cleanDeploymentYAML kv.1.2)))
  | .array arr => .array (arr.attach.map (fun v => cleanDeploymentYAML v.1))
  | raw => raw
termination_by raw => sizeOf raw
decreasing_by
  · have hmem : kv.1 ∈ m := by
      have h := kv.2
      simp only [deleteExcluded, mapDelete, List.mem_filter] at h
      exact h.1.1.1.1.1.1.1
    have := List.sizeOf_lt_of_mem hmem
    have h2 : sizeOf kv.1.2 < sizeOf kv.1 := by
      obtain ⟨⟨k, w⟩, _⟩ := kv
      simp
    simp
    omega
  · have := List.sizeOf_lt_of_mem v.2
    simp
    omega

/-- The seven keys the specification lists as excluded. -/
def excludedKeys : List String :=
  ["status", "resourceVersion", "uid", "creationTimestamp", "generation", "managedFields",
    "annotations"]

/-- Some object inside the value, at any depth, has an excluded key as a field. -/
def hasExcludedKey : Value → Bool
  | .object m =>
      m.attach.any (fun kv => decide (kv.1.1 ∈ excludedKeys) || hasExcludedKey kv.1.2)
  | .array arr => arr.attach.any (fun v => hasExcludedKey v.1)
  | _ => false
termination_by raw => sizeOf raw
decreasing_by
  · have := List.sizeOf_lt_of_mem kv.2
    have h2 : sizeOf kv.1.2 < sizeOf kv.1 := by
      obtain ⟨⟨k, w⟩, _⟩ := kv
      simp
    simp
    omega
  · have := List.sizeOf_lt_of_mem v.2
    simp
    omega

/-! ## Alerts -/

/-- Go `m[key]` on a `map[string]string`: the value, or the empty string when absent. -/
def mapIndex (m : List (String × String)) (key : String) : String :=
  (m.lookup key).getD ""

/-- The `Alert` struct of querypromethues.go. -/
structure Alert where
  labels : List (String × String)
  annotations : List (String × String)
  state : String
  activeAt : String
deriving DecidableEq, Repr

/-- The `PrometheusAlerts` struct: the decoded answer of `/api/v1/alerts`. -/
structure PrometheusAlerts where
  status : String
  alerts : List Alert
deriving DecidableEq, Repr

/-! ## The outside world -/

/-- An entry of `OwnerReferences`. -/
structure OwnerReference where
  kind : String
  name : String
deriving DecidableEq, Repr

/-- A Pod as far as the agent reads it. -/
structure Pod where
  ownerReferences : List OwnerReference
deriving DecidableEq, Repr

/-- A ReplicaSet as far as the agent reads it. -/
structure ReplicaSet where
  ownerReferences : List OwnerReference
deriving DecidableEq, Repr

/-- A typed Deployment object as the API client returns it, named by its wire document. -/
structure Deployment where
  document : String
deriving DecidableEq, Repr

/-- An HTTP answer: status code, what `io.ReadAll` reads from the body and the error it
reports, if any. -/
structure HttpResponse where
  statusCode : Nat
  body : String
  readErr : Option String
deriving DecidableEq, Repr

/-- A call that leaves the process. -/
inductive Event where
  | podsGet (ns name : String)
  | replicaSetsGet (ns name : String)
  | deploymentsGet (ns name : String)
  | podsDelete (ns name : String)
  | deploymentsPatch (ns name patchType data : String) (dryRun : Bool)
  | createChatCompletion (baseURL model system user : String)
  | httpRequest (method url body : String)
deriving DecidableEq, Repr

/-- The answers of the cluster, the oracle, the HTTP peers, and the library functions the
agent calls. An answer may depend on every call made before it. -/
structure Env where
  podsGet : List Event → String → String → Except String Pod
  replicaSetsGet : List Event → String → String → Except String ReplicaSet
  deploymentsGet : List Event → String → String → Except String Deployment
  podsDelete : List Event → String → String → Option String
  deploymentsPatch : List Event → String → String → String → String → Bool → Option String
  createChatCompletion : List Event → String → String → String → String →
    Except String (List String)
  httpNewRequest : String → String → Option String
  httpDo : List Event → String → String → String → Except String HttpResponse
  jsonUnmarshal : String → Option String
  jsonMarshalDeployment : Deployment → Except String String
  jsonUnmarshalObject : String → Except String (List (String × Value))
  jsonMarshalFeishu : String → String → Except String String
  jsonUnmarshalAlerts : String → Except String PrometheusAlerts
  yamlMarshal : Value → Except String String
  caseTable : Char → Char

/-! ## The agent -/

/-- `types.StrategicMergePatchType`. -/
def strategicMergePatchType : String := "application/strategic-merge-patch+json"

/-- The webhook `executeAction` escalates to. -/
def escalationWebhook : String :=
  "https://www.feishu.cn/flow/api/trigger-webhook/7f016c94474f2681b672311cb70607d1"

/-- The webhook `applyPatch` confirms a change to. -/
def confirmationWebhook : String :=
  "https://www.feishu.cn/flow/api/trigger-webhook/6c7c623ec2cbc257e0ee37c0bfa0aa1d"

/-- The constant `prometheusURL`. -/
def prometheusURL : String := "http://192.168.30.11:30090"

/-- The owner loop of `getDeploymentYAML`: the name of the first owner of the given kind, the
empty string when there is none. -/
def firstOwnerOfKind (kind : String) : List OwnerReference → String
  | [] => ""
  | o :: rest => if o.kind = kind then o.name else firstOwnerOfKind kind rest

/-- `getCleanDeploymentYAML` (main.go 108-126). -/
def getCleanDeploymentYAML (env : Env) (deploy : Deployment) : Except String String :=
  match env.jsonMarshalDeployment deploy with
  | .error err => .error err
  | .ok data =>
    match env.jsonUnmarshalObject data with
    | .error err => .error err
    | .ok raw =>
      let cleaned := cleanDeploymentYAML (.object raw)
      match env.yamlMarshal cleaned with
      | .error err => .error err
      | .ok yamlData => .ok yamlData

/-- `getDeploymentYAML` (main.go 36-85): pod, then its ReplicaSet, then its Deployment, then
the cleaned YAML and the Deployment name. -/
def getDeploymentYAML (env : Env) (ns podName : String) (trace : List Event) :
    Except String (String × String) × List Event :=
  let trace1 := trace ++ [Event.podsGet ns podName]
  match env.podsGet trace ns podName with
  | .error err => (.error ("failed to get pod " ++ podName ++ ": " ++ err), trace1)
  | .ok pod =>
    let rsName := firstOwnerOfKind "ReplicaSet" pod.ownerReferences
    if rsName = "" then
      (.error ("pod " ++ podName ++ " 没有上层 ReplicaSet"), trace1)
    else
      let trace2 := trace1 ++ [Event.replicaSetsGet ns rsName]
      match env.replicaSetsGet trace1 ns rsName with
      | .error err => (.error ("failed to get replicaset " ++ rsName ++ ": " ++ err), trace2)
      | .ok rs =>
        let deployName := firstOwnerOfKind "Deployment" rs.ownerReferences
        if deployName = "" then
          (.error ("replicaset " ++ rsName ++ " 没有上层 Deployment"), trace2)
        else
          let trace3 := trace2 ++ [Event.deploymentsGet ns deployName]
          match env.deploymentsGet trace2 ns deployName with
          | .error err =>
            (.error ("failed to get deployment " ++ deployName ++ ": " ++ err), trace3)
          | .ok deploy =>
            match getCleanDeploymentYAML env deploy with
            | .error err => (.error ("failed to clean deployment yaml: " ++ err), trace3)
            | .ok yamlStr => (.ok (yamlStr, deployName), trace3)

/-- The `OpenAI` struct of openai.go, without its credential. -/
structure OpenAI where
  baseURL : String
deriving DecidableEq, Repr

/-- The base URL `NewOpenAIClient` configures. -/
def openaiBaseURL : String := "https://api.siliconflow.cn/v1"

/-- The model `SendMessage` asks for. -/
def chatModel : String := "Qwen/Qwen2.5-72B-Instruct"

/-- The system text `getLLMDecision` sends. -/
def personaPrompt : String := "你是一个Kubernetes专家,帮助解决集群的问题"

/-- `NewOpenAIClient` (openai.go 14-26): never fails. -/
def NewOpenAIClient : Except String OpenAI :=
  .ok { baseURL := openaiBaseURL }

/-- `SendMessage` (openai.go 28-53): `prompt` is the system text, `content` the user text;
the answer is the text of the first choice. -/
def SendMessage (env : Env) (o : OpenAI) (prompt content : String) (trace : List Event) :
    Except String String × List Event :=
  let trace1 := trace ++ [Event.createChatCompletion o.baseURL chatModel prompt content]
  match env.createChatCompletion trace o.baseURL chatModel prompt content with
  | .error err => (.error err, trace1)
  | .ok [] => (.error "no response from OpenAI", trace1)
  | .ok (choice :: _) => (.ok choice, trace1)

/-- The `fmt.Sprintf` of `getLLMDecision`. -/
def userPrompt (reason deploymentYaml : String) : String :=
  "你是一个云原生技术专家，负责分析 Kubernetes Pod/Deployment 出现的错误，并生成可直接修复问题的方案。请严格按照以下规则返回内容：\n" ++
    "1. 如果问题可以通过重启 Pod 解决，请只输出 restart。\n" ++
    "2. 如果问题可以通过修改 Deployment 生成 patch JSON 解决，请直接输出可用于 kubectl patch 的 JSON，不允许任何解释或额外文字,不要带代码框。\n" ++
    "3. 如果问题严重，需要人工干预（如数据库连接错误、服务 500 错误），请解释问题原因,以及错误的的信息如命名空间,deployment等,并在输出中添加 [feishu] 字段。\n" ++
    "\n" ++
    "K8s 报错信息：\n" ++
    reason ++ "\n\n对应的 Deployment YAML：\n" ++ deploymentYaml

/-- `getLLMDecision` (main.go 146-181): the intent and the text that goes with it. -/
def getLLMDecision (env : Env) (_ns deploymentYaml reason : String) (trace : List Event) :
    Except String (String × String) × List Event :=
  let userprompt := userPrompt reason deploymentYaml
  match NewOpenAIClient with
  | .error err => (.error err, trace)
  | .ok client =>
    match SendMessage env client personaPrompt userprompt trace with
    | (.error err, trace1) => (.error err, trace1)
    | (.ok resp, trace1) =>
      let responseText := stringsToLower env.caseTable resp
      if stringsContains responseText "restart" then
        (.ok ("RESTART", "重启了"), trace1)
      else if stringsContains responseText "[feishu]" then
        (.ok ("DANGEROUS", responseText), trace1)
      else
        (.ok ("PATCH", responseText), trace1)

/-- `restartPod` (main.go 208-210). -/
def restartPod (env : Env) (ns podName : String) (trace : List Event) :
    Option String × List Event :=
  (env.podsDelete trace ns podName, trace ++ [Event.podsDelete ns podName])

/-- `sendFeishuAlert` (main.go 243-273). -/
def sendFeishuAlert (env : Env) (message webhookURL : String) (trace : List Event) :
    Option String × List Event :=
  match env.jsonMarshalFeishu "text" message with
  | .error err => (some ("failed to marshal Feishu message: " ++ err), trace)
  | .ok payloadBytes =>
    match env.httpNewRequest "POST" webhookURL with
    | some err => (some ("failed to create HTTP request: " ++ err), trace)
    | none =>
      let trace1 := trace ++ [Event.httpRequest "POST" webhookURL payloadBytes]
      match env.httpDo trace "POST" webhookURL payloadBytes with
      | .error err => (some ("failed to send HTTP request: " ++ err), trace1)
      | .ok res =>
        if res.statusCode ≠ 200 then
          (some ("Feishu API returned non-200 status: " ++ toString res.statusCode ++
            ", body: " ++ res.body), trace1)
        else (none, trace1)

/-- `applyPatch` (main.go 211-241): JSON check, dry-run patch, committing patch,
confirmation. -/
def applyPatch (env : Env) (ns deploymentName patchJSON : String) (trace : List Event) :
    Option String × List Event :=
  let patchStr := stringsTrimSpace patchJSON
  if patchStr = "" then (some "empty patch", trace)
  else
    match env.jsonUnmarshal patchStr with
    | some err => (some ("patch is not valid JSON: " ++ err), trace)
    | none =>
      let trace1 := trace ++
        [Event.deploymentsPatch ns deploymentName strategicMergePatchType patchStr true]
      match env.deploymentsPatch trace ns deploymentName strategicMergePatchType patchStr
        true with
      | some err => (some ("dry-run patch failed: " ++ err), trace1)
      | none =>
        let trace2 := trace1 ++
          [Event.deploymentsPatch ns deploymentName strategicMergePatchType patchStr false]
        match env.deploymentsPatch trace1 ns deploymentName strategicMergePatchType patchStr
          false with
        | some err =>
          (some ("apply patch failed after successful dry-run: " ++ err), trace2)
        | none =>
          let message := "集群有一条新的变更：Kubernetes Deployment " ++ deploymentName ++
            " in namespace " ++ ns ++ " has been patched to fix an issue."
          (none, (sendFeishuAlert env message confirmationWebhook trace2).2)

/-- `executeAction` (main.go 182-207). -/
def executeAction (env : Env) (ns podName deploymentName action message : String)
    (trace : List Event) : Option String × List Event :=
  if action = "RESTART" then
    match restartPod env ns podName trace with
    | (some err, trace1) => (some err, trace1)
    | (none, trace1) => (none, trace1)
  else if action = "DANGEROUS" then
    match sendFeishuAlert env message escalationWebhook trace with
    | (some err, trace1) => (some err, trace1)
    | (none, trace1) => (none, trace1)
  else if action = "PATCH" then
    match applyPatch env ns deploymentName message trace with
    | (some err, trace1) => (some err, trace1)
    | (none, trace1) => (none, trace1)
  else (some ("unknown action: " ++ action), trace)

/-- `queryPrometheusAlerts` (querypromethues.go 33-61): the firing alerts of the decoded
answer, collected by the `append` loop. -/
def queryPrometheusAlerts (env : Env) (trace : List Event) :
    Except String (List Alert) × List Event :=
  let trace1 := trace ++ [Event.httpRequest "GET" (prometheusURL ++ "/api/v1/alerts") ""]
  match env.httpDo trace "GET" (prometheusURL ++ "/api/v1/alerts") "" with
  | .error err => (.error ("failed to get alerts from Prometheus: " ++ err), trace1)
  | .ok resp =>
    if resp.statusCode ≠ 200 then
      (.error ("prometheus returned non-200 status code: " ++ toString resp.statusCode),
        trace1)
    else
      match resp.readErr with
      | some err => (.error ("failed to read response body: " ++ err), trace1)
      | none =>
        match env.jsonUnmarshalAlerts resp.body with
        | .error err => (.error ("failed to unmarshal json: " ++ err), trace1)
        | .ok alertResponse =>
          (.ok (alertResponse.alerts.foldl
            (fun firingAlerts alert =>
              if alert.state = "firing" then firingAlerts ++ [alert] else firingAlerts) []),
            trace1)

/-- How the alert loop of `agentLoop` ends: it runs through the batch, or `log.Fatalf` ends
the process. -/
inductive Control where
  | completed
  | fatal (msg : String)
deriving DecidableEq, Repr

/-- The watch-list test of `agentLoop` (main.go 295). -/
def isWatched (alert : Alert) : Bool :=
  mapIndex alert.labels "alertname" = "PodCrashLooping" ||
    mapIndex alert.labels "alertname" = "OOMKilled" ||
    mapIndex alert.labels "alertname" = "ImagePullBackOff"

/-- The loop `for _, alert := range alerts` of `agentLoop` (main.go 291-311). `log.Fatalf`
ends the process, so the `return err` after it is never reached; `executeAction` runs before
the error of `getLLMDecision` is looked at, and what it returns is dropped. -/
def processAlerts (env : Env) : List Alert → List Event → Control × List Event
  | [], trace => (.completed, trace)
  | alert :: rest, trace =>
    if isWatched alert then
      let Namespcae := mapIndex alert.labels "namespace"
      let podName := mapIndex alert.labels "pod"
      let reason := mapIndex alert.annotations "description"
      match getDeploymentYAML env Namespcae podName trace with
      | (.error err, trace1) => (.fatal ("Failed to get Deployment YAML: " ++ err), trace1)
      | (.ok (yamlData, deploymentName), trace1) =>
        match getLLMDecision env Namespcae yamlData reason trace1 with
        | (.error err, trace2) =>
          (.fatal ("Failed to get LLM decision: " ++ err),
            (executeAction env Namespcae podName deploymentName "" "" trace2).2)
        | (.ok (decision, patchYaml), trace2) =>
          processAlerts env rest
            (executeAction env Namespcae podName deploymentName decision patchYaml trace2).2
    else processAlerts env rest trace

/-- How one pass through the body of the `for` of `agentLoop` ends. -/
inductive LoopStep where
  | again
  | returned
  | exited (msg : String)
deriving DecidableEq, Repr

/-- The body of the `for` of `agentLoop` (main.go 275-317): a failed poll starts the body
again, a poll that succeeds is followed by the alert loop and `return nil`. -/
def agentLoopBody (env : Env) (trace : List Event) : LoopStep × List Event :=
  match queryPrometheusAlerts env trace with
  | (.error _, trace1) => (.again, trace1)
  | (.ok alerts, trace1) =>
    match processAlerts env alerts trace1 with
    | (.fatal msg, trace2) => (.exited msg, trace2)
    | (.completed, trace2) => (.returned, trace2)

/-- `agentLoop` (main.go 274-318), run for at most `fuel` polls: `none` when the polls are
used up. -/
def agentLoop (env : Env) : Nat → List Event → Option LoopStep × List Event
  | 0, trace => (none, trace)
  | fuel + 1, trace =>
    match agentLoopBody env trace with
    | (.again, trace1) => agentLoop env fuel trace1
    | (step, trace1) => (some step, trace1)

/-! ## Observing the trace -/

/-- The event is the read of a pod, the first call of `getDeploymentYAML` and so the mark that
an alert has entered its pipeline. -/
def isPodsGet : Event → Bool
  | .podsGet _ _ => true
  | _ => false

/-- The event is a Patch of a Deployment in dry-run mode. -/
def isDryRunPatch : Event → Bool
  | .deploymentsPatch _ _ _ _ dryRun => dryRun
  | _ => false

/-- The event is a Patch of a Deployment that commits. -/
def isCommittingPatch : Event → Bool
  | .deploymentsPatch _ _ _ _ dryRun => !dryRun
  | _ => false

/-- The event is an HTTP request, the only way a notification leaves the process. -/
def isHttpRequest : Event → Bool
  | .httpRequest _ _ _ => true
  | _ => false

/-- The read of the pod an alert names. -/
def podsGetOf (alert : Alert) : Event :=
  Event.podsGet (mapIndex alert.labels "namespace") (mapIndex alert.labels "pod")

/-! ## The isolated pipeline of the specification

The specification asks that each watched alert runs through its own pipeline (resolve,
classify, execute) and that the pipelines of a batch run one after another whatever the
others came to. The two definitions below follow these words; the theorems on the control
loop compare `processAlerts` with them. -/

/-- What the pipeline of one alert came to. -/
inductive PipelineOutcome where
  | resolutionFailed (err : String)
  | classificationFailed (err : String)
  | executed (intent payload : String) (result : Option String)
deriving DecidableEq, Repr

/-- The pipeline reached `executeAction`; `result` is what that call returned. -/
def PipelineOutcome.isExecuted : PipelineOutcome → Bool
  | .executed _ _ _ => true
  | _ => false

/-- The pipeline of one alert on its own: ownership resolution, then classification at the
trace resolution left, then execution at the trace classification left. A stage that fails
ends this pipeline and nothing else. -/
def alertPipeline (env : Env) (alert : Alert) (trace : List Event) :
    PipelineOutcome × List Event :=
  match getDeploymentYAML env (mapIndex alert.labels "namespace")
      (mapIndex alert.labels "pod") trace with
  | (.error err, resolved) => (.resolutionFailed err, resolved)
  | (.ok (yamlData, deploymentName), resolved) =>
    match getLLMDecision env (mapIndex alert.labels "namespace") yamlData
        (mapIndex alert.annotations "description") resolved with
    | (.error err, classified) => (.classificationFailed err, classified)
    | (.ok (decision, patchYaml), classified) =>
      (.executed decision patchYaml
          (executeAction env (mapIndex alert.labels "namespace") (mapIndex alert.labels "pod")
            deploymentName decision patchYaml classified).1,
        (executeAction env (mapIndex alert.labels "namespace") (mapIndex alert.labels "pod")
          deploymentName decision patchYaml classified).2)

/-- The batch with isolated pipelines: every watched alert runs its pipeline, in order, each
starting at the trace the one before left; the outcome of each is recorded next to it. -/
def isolatedBatch (env : Env) :
    List Alert → List Event → List (Alert × PipelineOutcome) × List Event
  | [], trace => ([], trace)
  | alert :: rest, trace =>
    if isWatched alert then
      ((alert, (alertPipeline env alert trace).1) ::
          (isolatedBatch env rest (alertPipeline env alert trace).2).1,
        (isolatedBatch env rest (alertPipeline env alert trace).2).2)
    else isolatedBatch env rest trace

/-! ## Sample worlds -/

/-- A stand-in for `json.Unmarshal` into an `interface{}` that accepts the documents used in
the samples below and rejects every other text. -/
def sampleJsonUnmarshal (s : String) : Option String :=
  if s = "\x7b\x7d" ∨ s = "\x7b\"spec\":\x7b\"replicas\":2\x7d\x7d" then none
  else some "invalid character"

/-- A firing crash-loop alert on pod `p1` of namespace `ns1`. -/
def alertP1 : Alert :=
  { labels := [("alertname", "PodCrashLooping"), ("namespace", "ns1"), ("pod", "p1")],
    annotations := [("description", "back-off restarting failed container")],
    state := "firing",
    activeAt := "2024-01-01T00:00:00Z" }

/-- A firing out-of-memory alert on pod `p2` of namespace `ns1`. -/
def alertP2 : Alert :=
  { labels := [("alertname", "OOMKilled"), ("namespace", "ns1"), ("pod", "p2")],
    annotations := [("description", "container killed")],
    state := "firing",
    activeAt := "2024-01-01T00:00:05Z" }

/-- A pending alert, which the poller drops. -/
def alertPending : Alert :=
  { labels := [("alertname", "OOMKilled"), ("namespace", "ns1"), ("pod", "p3")],
    annotations := [],
    state := "pending",
    activeAt := "2024-01-01T00:00:07Z" }

/-- A world in which every call succeeds: each pod is owned by ReplicaSet `dep1-7d9f`, that
by Deployment `dep1`, the oracle answers `restart`, and the monitoring source reports
`alertP1`, `alertPending`, `alertP2`. -/
def calmEnv : Env :=
  { podsGet := fun _ _ _ => .ok { ownerReferences := [{ kind := "ReplicaSet", name := "dep1-7d9f" }] },
    replicaSetsGet := fun _ _ _ =>
      .ok { ownerReferences := [{ kind := "Deployment", name := "dep1" }] },
    deploymentsGet := fun _ _ name => .ok { document := name },
    podsDelete := fun _ _ _ => none,
    deploymentsPatch := fun _ _ _ _ _ _ => none,
    createChatCompletion := fun _ _ _ _ _ => .ok ["restart"],
    httpNewRequest := fun _ _ => none,
    httpDo := fun _ _ _ _ => .ok { statusCode := 200, body := "", readErr := none },
    jsonUnmarshal := sampleJsonUnmarshal,
    jsonMarshalDeployment := fun deploy => .ok deploy.document,
    jsonUnmarshalObject := fun _ => .ok [("kind", .string "Deployment"), ("status", .null)],
    jsonMarshalFeishu := fun _ text => .ok text,
    jsonUnmarshalAlerts := fun _ =>
      .ok { status := "success", alerts := [alertP1, alertPending, alertP2] },
    yamlMarshal := fun _ => .ok "kind: Deployment\n",
    caseTable := id }

/-- The calm world, except that the cluster rejects every dry-run patch. -/
def dryRunRejectingEnv : Env :=
  { calmEnv with
    deploymentsPatch := fun _ _ _ _ _ dryRun =>
      if dryRun then some "admission webhook denied the request" else none }

/-- The calm world, except that the pod to delete is already gone. -/
def podGoneEnv : Env :=
  { calmEnv with podsDelete := fun _ _ name => some ("pods \"" ++ name ++ "\" not found") }

/-- The calm world, except that pod `p1` cannot be read. -/
def podUnreadableEnv : Env :=
  { calmEnv with
    podsGet := fun _ _ name =>
      if name = "p1" then .error "pods \"p1\" not found"
      else .ok { ownerReferences := [{ kind := "ReplicaSet", name := "dep1-7d9f" }] } }

/-- The calm world, except that the oracle answers with a patch document whose field names
are in camel case. -/
def camelCasePatchEnv : Env :=
  { calmEnv with
    createChatCompletion := fun _ _ _ _ _ =>
      .ok ["\x7b\"spec\":\x7b\"revisionHistoryLimit\":5\x7d\x7d"] }

/-- The calm world, except that the oracle cannot be reached. -/
def oracleDownEnv : Env :=
  { calmEnv with createChatCompletion := fun _ _ _ _ _ => .error "connection refused" }

/-- The calm world, except that the oracle asks for a human. -/
def escalatingEnv : Env :=
  { calmEnv with
    createChatCompletion := fun _ _ _ _ _ =>
      .ok ["[Feishu] Database connection error in ns1/dep1"] }

/-- A cluster with memory: a pod that has been deleted can no longer be read. The delete of
`p1` is refused, every other delete succeeds. -/
def rememberingEnv : Env :=
  { calmEnv with
    podsGet := fun trace ns name =>
      if Event.podsDelete ns name ∈ trace then .error ("pods \"" ++ name ++ "\" not found")
      else .ok { ownerReferences := [{ kind := "ReplicaSet", name := "dep1-7d9f" }] },
    podsDelete := fun _ _ name =>
      if name = "p1" then some "pods \"p1\" is forbidden" else none }

/-! ## The manifest sanitizer: what it removes and what it keeps -/

theorem Value.induct {P : Value → Prop}
    (hnull : P .null) (hbool : ∀ b, P (.bool b)) (hnum : ∀ n, P (.number n))
    (hstr : ∀ s, P (.string s))
    (harr : ∀ arr, (∀ v ∈ arr, P v) → P (.array arr))
    (hobj : ∀ m, (∀ kv ∈ m, P kv.2) → P (.object m)) : ∀ v, P v
  | .null => hnull
  | .bool b => hbool b
  | .number n => hnum n
  | .string s => hstr s
  | .array arr => harr arr (fun v _hv => Value.induct hnull hbool hnum hstr harr hobj v)
  | .object m => hobj m (fun kv _hkv => Value.induct hnull hbool hnum hstr harr hobj kv.2)
termination_by v => sizeOf v
decreasing_by
  · have := List.sizeOf_lt_of_mem _hv
    simp
    omega
  · have := List.sizeOf_lt_of_mem _hkv
    have h2 : sizeOf kv.2 < sizeOf kv := by
      obtain ⟨k, w⟩ := kv
      simp
    simp
    omega

theorem deleteExcluded_eq_filter (m : List (String × Value)) :
    deleteExcluded m = m.filter (fun kv => decide (kv.1 ∉ excludedKeys)) := by
  simp only [deleteExcluded, mapDelete, List.filter_filter]
  congr 1
  funext kv
  rw [Bool.eq_iff_iff]
  simp [excludedKeys]
  tauto

theorem cleanDeploymentYAML_object (m : List (String × Value)) :
    cleanDeploymentYAML (.object m) =
      .object ((m.filter (fun kv => decide (kv.1 ∉ excludedKeys))).map
        (fun kv => (kv.1, cleanDeploymentYAML kv.2))) := by
  rw [cleanDeploymentYAML, ← deleteExcluded_eq_filter]
  congr 1
  exact List.attach_map_coe (deleteExcluded m) (fun kv => (kv.1, cleanDeploymentYAML kv.2))

theorem cleanDeploymentYAML_array (arr : List Value) :
    cleanDeploymentYAML (.array arr) = .array (arr.map cleanDeploymentYAML) := by
  rw [cleanDeploymentYAML]
  congr 1
  exact List.attach_map_coe arr cleanDeploymentYAML

theorem any_attach_eq {α : Type} (l : List α) (f : α → Bool) :
    l.attach.any (fun x => f x.1) = l.any f := by
  rw [Bool.eq_iff_iff]
  simp only [List.any_eq_true]
  constructor
  · rintro ⟨x, _, hx⟩
    exact ⟨x.1, x.2, hx⟩
  · rintro ⟨x, hx, hfx⟩
    exact ⟨⟨x, hx⟩, List.mem_attach _ _, hfx⟩

theorem hasExcludedKey_object (m : List (String × Value)) :
    hasExcludedKey (.object m) =
      m.any (fun kv => decide (kv.1 ∈ excludedKeys) || hasExcludedKey kv.2) := by
  rw [hasExcludedKey]
  exact any_attach_eq m (fun kv => decide (kv.1 ∈ excludedKeys) || hasExcludedKey kv.2)

theorem hasExcludedKey_array (arr : List Value) :
    hasExcludedKey (.array arr) = arr.any hasExcludedKey := by
  rw [hasExcludedKey]
  exact any_attach_eq arr hasExcludedKey

theorem lookup_cleaned_fields (m : List (String × Value)) (k : String) :
    ((m.filter (fun kv => decide (kv.1 ∉ excludedKeys))).map
        (fun kv => (kv.1, cleanDeploymentYAML kv.2))).lookup k =
      if k ∈ excludedKeys then none else (m.lookup k).map cleanDeploymentYAML := by
  induction m with
  | nil => simp
  | cons hd tl ih =>
    obtain ⟨key, v⟩ := hd
    by_cases hkey : key ∈ excludedKeys
    · have hf : ((key, v) :: tl).filter (fun kv => decide (kv.1 ∉ excludedKeys)) =
          tl.filter (fun kv => decide (kv.1 ∉ excludedKeys)) := by
        simp [List.filter_cons, hkey]
      rw [hf, ih]
      by_cases hk : k ∈ excludedKeys
      · simp [hk]
      · have hne : (k == key) = false := by
          rw [beq_eq_false_iff_ne]
          rintro rfl
          exact hk hkey
        simp [hk, List.lookup_cons, hne]
    · have hf : ((key, v) :: tl).filter (fun kv => decide (kv.1 ∉ excludedKeys)) =
          (key, v) :: tl.filter (fun kv => decide (kv.1 ∉ excludedKeys)) := by
        simp [List.filter_cons, hkey]
      rw [hf, List.map_cons, List.lookup_cons, List.lookup_cons, ih]
      by_cases hkk : k = key
      · subst hkk
        simp [hkey]
      · have hne : (k == key) = false := by
          rw [beq_eq_false_iff_ne]
          exact hkk
        simp [hne]

/-- C5: the output of `cleanDeploymentYAML` has none of the seven excluded keys as an object
field at any depth, also inside objects that are elements of sequences. -/
theorem cleanDeploymentYAML_no_excluded_key (raw : Value) :
    hasExcludedKey (cleanDeploymentYAML raw) = false := by
  induction raw using Value.induct with
  | hnull => simp [cleanDeploymentYAML, hasExcludedKey]
  | hbool b => simp [cleanDeploymentYAML, hasExcludedKey]
  | hnum n => simp [cleanDeploymentYAML, hasExcludedKey]
  | hstr s => simp [cleanDeploymentYAML, hasExcludedKey]
  | harr arr ih =>
    rw [cleanDeploymentYAML_array, hasExcludedKey_array, List.any_eq_false]
    intro v hv
    obtain ⟨w, hw, rfl⟩ := List.mem_map.1 hv
    simp [ih w hw]
  | hobj m ih =>
    rw [cleanDeploymentYAML_object, hasExcludedKey_object, List.any_eq_false]
    intro kv hkv
    obtain ⟨kw, hkw, rfl⟩ := List.mem_map.1 hkv
    have h := List.mem_filter.1 hkw
    have h2 : kw.1 ∉ excludedKeys := by simpa using h.2
    simp [ih kw h.1, h2]

/-- C6: `cleanDeploymentYAML` keeps what is not excluded. An object keeps exactly its entries
with a non-excluded key, in order, each value in its cleaned form (so a lookup of a
non-excluded key gives the cleaned form of the original value, and of an excluded key
nothing); a sequence keeps its length and order, each element in its cleaned form; a scalar
is returned unchanged. -/
theorem cleanDeploymentYAML_preserves :
    (∀ m : List (String × Value), ∃ cleaned : List (String × Value),
      cleanDeploymentYAML (.object m) = .object cleaned ∧
      cleaned = (m.filter (fun kv => decide (kv.1 ∉ excludedKeys))).map
        (fun kv => (kv.1, cleanDeploymentYAML kv.2)) ∧
      cleaned.map Prod.fst = (m.map Prod.fst).filter (fun k => decide (k ∉ excludedKeys)) ∧
      ∀ k : String, cleaned.lookup k =
        if k ∈ excludedKeys then none else (m.lookup k).map cleanDeploymentYAML) ∧
    (∀ arr : List Value, ∃ cleaned : List Value,
      cleanDeploymentYAML (.array arr) = .array cleaned ∧
      cleaned.length = arr.length ∧
      ∀ i : Nat, cleaned[i]? = (arr[i]?).map cleanDeploymentYAML) ∧
    cleanDeploymentYAML .null = .null ∧
    (∀ b : Bool, cleanDeploymentYAML (.bool b) = .bool b) ∧
    (∀ n : Nat, cleanDeploymentYAML (.number n) = .number n) ∧
    (∀ s : String, cleanDeploymentYAML (.string s) = .string s) := by
  refine ⟨?_, ?_, ?_, ?_, ?_, ?_⟩
  · intro m
    refine ⟨_, cleanDeploymentYAML_object m, rfl, ?_, lookup_cleaned_fields m⟩
    rw [List.map_map, List.filter_map]
    rfl
  · intro arr
    refine ⟨_, cleanDeploymentYAML_array arr, by simp, ?_⟩
    intro i
    simp
  · simp [cleanDeploymentYAML]
  · intro b
    simp [cleanDeploymentYAML]
  · intro n
    simp [cleanDeploymentYAML]
  · intro s
    simp [cleanDeploymentYAML]

/-- C7: `cleanDeploymentYAML` is idempotent: cleaning a cleaned value changes nothing. -/
theorem cleanDeploymentYAML_idempotent (raw : Value) :
    cleanDeploymentYAML (cleanDeploymentYAML raw) = cleanDeploymentYAML raw := by
  induction raw using Value.induct with
  | hnull => simp [cleanDeploymentYAML]
  | hbool b => simp [cleanDeploymentYAML]
  | hnum n => simp [cleanDeploymentYAML]
  | hstr s => simp [cleanDeploymentYAML]
  | harr arr ih =>
    rw [cleanDeploymentYAML_array, cleanDeploymentYAML_array, List.map_map]
    congr 1
    apply List.map_congr_left
    intro v hv
    exact ih v hv
  | hobj m ih =>
    rw [cleanDeploymentYAML_object, cleanDeploymentYAML_object]
    congr 1
    rw [List.filter_map, List.filter_filter, List.map_map]
    have hf : (fun a : String × Value =>
        ((fun kv : String × Value => decide (kv.1 ∉ excludedKeys)) ∘
          fun kv : String × Value => (kv.1, cleanDeploymentYAML kv.2)) a &&
          decide (a.1 ∉ excludedKeys)) = fun kv => decide (kv.1 ∉ excludedKeys) := by
      funext a
      simp
    rw [hf]
    apply List.map_congr_left
    intro kv hkv
    have := ih kv (List.mem_filter.1 hkv).1
    simp [this]

theorem hasExcludedKey_detects_nested :
    hasExcludedKey (.object [("spec", .array [.number 0, .object [("uid", .string "u")]])]) =
      true := by
  simp [hasExcludedKey_object, hasExcludedKey_array, excludedKeys]

theorem cleanDeploymentYAML_sample :
    cleanDeploymentYAML (.object [("kind", .string "Deployment"),
        ("metadata", .object [("name", .string "dep1"), ("uid", .string "u"),
          ("annotations", .object [("note", .string "n")])]),
        ("spec", .array [.object [("generation", .number 7), ("image", .string "v2")]]),
        ("status", .null)]) =
      .object [("kind", .string "Deployment"),
        ("metadata", .object [("name", .string "dep1")]),
        ("spec", .array [.object [("image", .string "v2")]])] := by
  simp [cleanDeploymentYAML_object, cleanDeploymentYAML_array, cleanDeploymentYAML,
    excludedKeys, List.filter_cons]

/-! ## Strings -/

theorem containsChars_iff (substr l : List Char) :
    containsChars substr l = true ↔ substr <:+: l := by
  induction l with
  | nil => simp [containsChars]
  | cons c cs ih =>
    simp only [containsChars, Bool.or_eq_true, ih]
    constructor
    · rintro (h | h)
      · exact (List.isPrefixOf_iff_prefix.1 h).isInfix
      · obtain ⟨s, t, hst⟩ := h
        exact ⟨c :: s, t, by simp [← hst]⟩
    · rintro ⟨s, t, hst⟩
      cases s with
      | nil => exact Or.inl (List.isPrefixOf_iff_prefix.2 ⟨t, by simpa using hst⟩)
      | cons a s =>
        right
        refine ⟨s, t, ?_⟩
        simp only [List.cons_append, List.append_assoc, List.cons.injEq] at hst
        simpa using hst.2

theorem stringsContains_iff (s substr : String) :
    stringsContains s substr = true ↔ substr.data <:+: s.data :=
  containsChars_iff substr.data s.data

/-! ## The alert poller -/

theorem foldl_append_firing (alerts acc : List Alert) :
    alerts.foldl (fun firingAlerts alert =>
        if alert.state = "firing" then firingAlerts ++ [alert] else firingAlerts) acc =
      acc ++ alerts.filter (fun a => decide (a.state = "firing")) := by
  induction alerts generalizing acc with
  | nil => simp
  | cons a rest ih =>
    rw [List.foldl_cons, ih]
    by_cases h : a.state = "firing"
    · simp [h, List.filter_cons]
    · simp [h, List.filter_cons]

/-- C10: when the monitoring source answers 200 with a readable body that decodes, then
`queryPrometheusAlerts` returns exactly the firing alerts of the decoded list: every returned
alert is firing, every firing alert of the list is returned, and the order is kept. -/
theorem queryPrometheusAlerts_firing (env : Env) (trace : List Event) (resp : HttpResponse)
    (decoded : PrometheusAlerts)
    (hdo : env.httpDo trace "GET" (prometheusURL ++ "/api/v1/alerts") "" = .ok resp)
    (hstatus : resp.statusCode = 200) (hread : resp.readErr = none)
    (hdecode : env.jsonUnmarshalAlerts resp.body = .ok decoded) :
    ∃ firing : List Alert,
      (queryPrometheusAlerts env trace).1 = .ok firing ∧
      firing = decoded.alerts.filter (fun a => decide (a.state = "firing")) ∧
      (∀ a ∈ firing, a.state = "firing") ∧
      (∀ a ∈ decoded.alerts, a.state = "firing" → a ∈ firing) ∧
      firing.Sublist decoded.alerts := by
  refine ⟨decoded.alerts.filter (fun a => decide (a.state = "firing")), ?_, rfl, ?_, ?_, ?_⟩
  · simp [queryPrometheusAlerts, hdo, hstatus, hread, hdecode, foldl_append_firing]
  · intro a ha
    simpa using (List.mem_filter.1 ha).2
  · intro a ha hf
    exact List.mem_filter.2 ⟨ha, by simpa using hf⟩
  · exact List.filter_sublist _

theorem queryPrometheusAlerts_firing_witness :
    ∃ firing : List Alert,
      (queryPrometheusAlerts calmEnv []).1 = .ok firing ∧
      firing = [alertP1, alertPending, alertP2].filter (fun a => decide (a.state = "firing")) ∧
      (∀ a ∈ firing, a.state = "firing") ∧
      (∀ a ∈ [alertP1, alertPending, alertP2], a.state = "firing" → a ∈ firing) ∧
      firing.Sublist [alertP1, alertPending, alertP2] :=
  queryPrometheusAlerts_firing calmEnv [] { statusCode := 200, body := "", readErr := none }
    { status := "success", alerts := [alertP1, alertPending, alertP2] } rfl rfl rfl rfl

theorem queryPrometheusAlerts_calm :
    queryPrometheusAlerts calmEnv [] =
      (.ok [alertP1, alertP2],
        [Event.httpRequest "GET" "http://192.168.30.11:30090/api/v1/alerts" ""]) := rfl

/-! ## The guarded executor -/

/-- C1: when the payload passes the JSON check and the dry-run Patch call returns an error,
`applyPatch` returns an error and the calls it makes are exactly one dry-run Patch: one trial
call, no committing call and no confirmation notification. -/
theorem applyPatch_dry_run_rejected (env : Env) (ns deploymentName patchJSON : String)
    (trace : List Event) (err : String)
    (hnonempty : stringsTrimSpace patchJSON ≠ "")
    (hjson : env.jsonUnmarshal (stringsTrimSpace patchJSON) = none)
    (hdry : env.deploymentsPatch trace ns deploymentName strategicMergePatchType
      (stringsTrimSpace patchJSON) true = some err) :
    ∃ calls : List Event,
      applyPatch env ns deploymentName patchJSON trace =
        (some ("dry-run patch failed: " ++ err), trace ++ calls) ∧
      calls = [Event.deploymentsPatch ns deploymentName strategicMergePatchType
        (stringsTrimSpace patchJSON) true] ∧
      (calls.filter isDryRunPatch).length = 1 ∧
      (calls.filter isCommittingPatch).length = 0 ∧
      (calls.filter isHttpRequest).length = 0 := by
  refine ⟨_, ?_, rfl, ?_, ?_, ?_⟩
  · simp [applyPatch, hnonempty, hjson, hdry]
  · simp [isDryRunPatch]
  · simp [isCommittingPatch]
  · simp [isHttpRequest]

theorem applyPatch_dry_run_rejected_witness :
    ∃ calls : List Event,
      applyPatch dryRunRejectingEnv "ns1" "dep1"
          " \x7b\"spec\":\x7b\"replicas\":2\x7d\x7d\n" [] =
        (some ("dry-run patch failed: " ++ "admission webhook denied the request"),
          [] ++ calls) ∧
      calls = [Event.deploymentsPatch "ns1" "dep1" strategicMergePatchType
        (stringsTrimSpace " \x7b\"spec\":\x7b\"replicas\":2\x7d\x7d\n") true] ∧
      (calls.filter isDryRunPatch).length = 1 ∧
      (calls.filter isCommittingPatch).length = 0 ∧
      (calls.filter isHttpRequest).length = 0 :=
  applyPatch_dry_run_rejected dryRunRejectingEnv "ns1" "dep1"
    " \x7b\"spec\":\x7b\"replicas\":2\x7d\x7d\n" [] "admission webhook denied the request"
    (by decide) (by decide) (by decide)

/-- C2: a payload that is empty after trimming, or that the JSON check rejects, makes
`applyPatch` fail without any call: neither Patch is issued and the trace is unchanged. -/
theorem applyPatch_invalid_payload (env : Env) (ns deploymentName patchJSON : String)
    (trace : List Event)
    (hbad : stringsTrimSpace patchJSON = "" ∨
      (env.jsonUnmarshal (stringsTrimSpace patchJSON)).isSome = true) :
    (applyPatch env ns deploymentName patchJSON trace).1.isSome = true ∧
      (applyPatch env ns deploymentName patchJSON trace).2 = trace := by
  by_cases hempty : stringsTrimSpace patchJSON = ""
  · simp [applyPatch, hempty]
  · rcases hbad with h | h
    · exact absurd h hempty
    · obtain ⟨e, he⟩ := Option.isSome_iff_exists.1 h
      simp [applyPatch, hempty, he]

theorem applyPatch_invalid_payload_witness :
    (applyPatch calmEnv "ns1" "dep1" "replicas: 2" []).1.isSome = true ∧
      (applyPatch calmEnv "ns1" "dep1" "replicas: 2" []).2 = [] :=
  applyPatch_invalid_payload calmEnv "ns1" "dep1" "replicas: 2" [] (Or.inr (by decide))

theorem applyPatch_blank_payload :
    applyPatch calmEnv "ns1" "dep1" " \t\n" [] = (some "empty patch", []) := by decide

theorem applyPatch_accepted_payload :
    applyPatch calmEnv "ns1" "dep1" "\x7b\x7d" [] =
    (none, [Event.deploymentsPatch "ns1" "dep1" strategicMergePatchType "\x7b\x7d" true,
      Event.deploymentsPatch "ns1" "dep1" strategicMergePatchType "\x7b\x7d" false,
      Event.httpRequest "POST" confirmationWebhook
        ("集群有一条新的变更：Kubernetes Deployment dep1 in namespace ns1 " ++
          "has been patched to fix an issue.")]) := by
  decide

/-! ## The decision classifier -/

/-- C3: whatever text `r` the oracle answers, `getLLMDecision` produces exactly one of the
three intents, by strict precedence on the lowercased text: RESTART exactly when it contains
`restart`; otherwise DANGEROUS exactly when it contains `[feishu]`, and then the message is
the whole lowercased text; otherwise PATCH. -/
theorem getLLMDecision_precedence (env : Env) (ns deploymentYaml reason : String)
    (trace : List Event) (r : String) (others : List String)
    (hanswer : env.createChatCompletion trace openaiBaseURL chatModel personaPrompt
      (userPrompt reason deploymentYaml) = .ok (r :: others)) :
    ∃ intent message : String,
      (getLLMDecision env ns deploymentYaml reason trace).1 = .ok (intent, message) ∧
      (intent = "RESTART" ∨ intent = "DANGEROUS" ∨ intent = "PATCH") ∧
      (intent = "RESTART" ↔
        stringsContains (stringsToLower env.caseTable r) "restart" = true) ∧
      (intent = "DANGEROUS" ↔
        stringsContains (stringsToLower env.caseTable r) "restart" = false ∧
          stringsContains (stringsToLower env.caseTable r) "[feishu]" = true) ∧
      (intent = "PATCH" ↔
        stringsContains (stringsToLower env.caseTable r) "restart" = false ∧
          stringsContains (stringsToLower env.caseTable r) "[feishu]" = false) ∧
      (intent = "DANGEROUS" → message = stringsToLower env.caseTable r) := by
  by_cases h1 : stringsContains (stringsToLower env.caseTable r) "restart" = true
  · refine ⟨"RESTART", "重启了", ?_, ?_⟩
    · simp [getLLMDecision, NewOpenAIClient, SendMessage, hanswer, h1]
    · simp [h1]
  · by_cases h2 : stringsContains (stringsToLower env.caseTable r) "[feishu]" = true
    · refine ⟨"DANGEROUS", stringsToLower env.caseTable r, ?_, ?_⟩
      · simp [getLLMDecision, NewOpenAIClient, SendMessage, hanswer, h1, h2]
      · simp [h1, h2]
    · refine ⟨"PATCH", stringsToLower env.caseTable r, ?_, ?_⟩
      · simp [getLLMDecision, NewOpenAIClient, SendMessage, hanswer, h1, h2]
      · simp [h1, h2]

theorem getLLMDecision_precedence_witness :
    ∃ intent message : String,
      (getLLMDecision calmEnv "ns1" "kind: Deployment\n" "crash loop" []).1 =
        .ok (intent, message) ∧
      (intent = "RESTART" ∨ intent = "DANGEROUS" ∨ intent = "PATCH") ∧
      (intent = "RESTART" ↔
        stringsContains (stringsToLower calmEnv.caseTable "restart") "restart" = true) ∧
      (intent = "DANGEROUS" ↔
        stringsContains (stringsToLower calmEnv.caseTable "restart") "restart" = false ∧
          stringsContains (stringsToLower calmEnv.caseTable "restart") "[feishu]" = true) ∧
      (intent = "PATCH" ↔
        stringsContains (stringsToLower calmEnv.caseTable "restart") "restart" = false ∧
          stringsContains (stringsToLower calmEnv.caseTable "restart") "[feishu]" = false) ∧
      (intent = "DANGEROUS" → message = stringsToLower calmEnv.caseTable "restart") :=
  getLLMDecision_precedence calmEnv "ns1" "kind: Deployment\n" "crash loop" [] "restart" [] rfl

/-- C4, at an answer that contains neither marker, a patch document with the field name
`revisionHistoryLimit`: the intent is PATCH, and the payload is the lowercased text, with the
field name `revisionhistorylimit`, not the answer itself. -/
theorem getLLMDecision_patch_payload_lowercased :
    (getLLMDecision camelCasePatchEnv "ns1" "kind: Deployment\n" "crash loop" []).1 =
        .ok ("PATCH", "\x7b\"spec\":\x7b\"revisionhistorylimit\":5\x7d\x7d") ∧
      "\x7b\"spec\":\x7b\"revisionhistorylimit\":5\x7d\x7d" ≠
        "\x7b\"spec\":\x7b\"revisionHistoryLimit\":5\x7d\x7d" := by
  constructor
  · rfl
  · decide

theorem getLLMDecision_escalation_sample :
    (getLLMDecision escalatingEnv "ns1" "kind: Deployment\n" "crash loop" []).1 =
      .ok ("DANGEROUS", "[feishu] database connection error in ns1/dep1") := rfl

/-! ## The guarded executor: the restart path -/

/-- C8, refuted at a pod that is already gone: the delete call reports `not found` and
`executeAction` returns that error. -/
theorem executeAction_restart_not_found_is_error :
    podGoneEnv.podsDelete [] "ns1" "p1" = some "pods \"p1\" not found" ∧
      (executeAction podGoneEnv "ns1" "p1" "dep1" "RESTART" "重启了" []).1 =
        some "pods \"p1\" not found" ∧
      (executeAction podGoneEnv "ns1" "p1" "dep1" "RESTART" "重启了" []).1 ≠ none := by
  decide

/-- C8 as the code has it: with the action RESTART, `executeAction` makes exactly one call,
the delete of the pod, and returns what that call returned: no error when the delete
succeeded, and the error of the backend, `not found` included, when it did not. No
escalation is sent. -/
theorem executeAction_restart_returns_delete_result (env : Env)
    (ns podName deploymentName message : String) (trace : List Event) :
    executeAction env ns podName deploymentName "RESTART" message trace =
      (env.podsDelete trace ns podName, trace ++ [Event.podsDelete ns podName]) := by
  simp only [executeAction, restartPod, if_true]
  cases env.podsDelete trace ns podName <;> rfl

/-! ## The control loop -/

theorem sendFeishuAlert_trace (env : Env) (message webhookURL : String) (trace : List Event) :
    ∃ ext : List Event, (sendFeishuAlert env message webhookURL trace).2 = trace ++ ext ∧
      ext.filter isPodsGet = [] := by
  unfold sendFeishuAlert
  split
  · exact ⟨[], by simp⟩
  · split
    · exact ⟨[], by simp⟩
    · split
      · exact ⟨_, rfl, by simp [isPodsGet]⟩
      · split
        · exact ⟨_, rfl, by simp [isPodsGet]⟩
        · exact ⟨_, rfl, by simp [isPodsGet]⟩

theorem applyPatch_trace (env : Env) (ns deploymentName patchJSON : String)
    (trace : List Event) :
    ∃ ext : List Event, (applyPatch env ns deploymentName patchJSON trace).2 = trace ++ ext ∧
      ext.filter isPodsGet = [] := by
  unfold applyPatch
  simp only []
  split
  · exact ⟨[], by simp⟩
  · split
    · exact ⟨[], by simp⟩
    · split
      · exact ⟨_, rfl, by simp [isPodsGet]⟩
      · split
        · exact ⟨_, by simp only [List.append_assoc]; rfl, by simp [isPodsGet]⟩
        · obtain ⟨ext, hext, hnone⟩ := sendFeishuAlert_trace env
            ("集群有一条新的变更：Kubernetes Deployment " ++ deploymentName ++
              " in namespace " ++ ns ++ " has been patched to fix an issue.")
            confirmationWebhook
            (trace ++
              [Event.deploymentsPatch ns deploymentName strategicMergePatchType
                (stringsTrimSpace patchJSON) true] ++
              [Event.deploymentsPatch ns deploymentName strategicMergePatchType
                (stringsTrimSpace patchJSON) false])
          refine ⟨Event.deploymentsPatch ns deploymentName strategicMergePatchType
              (stringsTrimSpace patchJSON) true ::
            Event.deploymentsPatch ns deploymentName strategicMergePatchType
              (stringsTrimSpace patchJSON) false :: ext, ?_, ?_⟩
          · rw [hext]
            simp
          · simp [isPodsGet, hnone]

theorem executeAction_trace (env : Env) (ns podName deploymentName action message : String)
    (trace : List Event) :
    ∃ ext : List Event,
      (executeAction env ns podName deploymentName action message trace).2 = trace ++ ext ∧
      ext.filter isPodsGet = [] := by
  unfold executeAction
  split
  · refine ⟨[Event.podsDelete ns podName], ?_, by simp [isPodsGet]⟩
    simp only [restartPod]
    cases env.podsDelete trace ns podName <;> rfl
  · split
    · obtain ⟨ext, hext, hnone⟩ := sendFeishuAlert_trace env message escalationWebhook trace
      refine ⟨ext, ?_, hnone⟩
      rw [← hext]
      split <;> simp_all
    · split
      · obtain ⟨ext, hext, hnone⟩ := applyPatch_trace env ns deploymentName message trace
        refine ⟨ext, ?_, hnone⟩
        rw [← hext]
        split <;> simp_all
      · exact ⟨[], by simp⟩

theorem getLLMDecision_trace (env : Env) (ns deploymentYaml reason : String)
    (trace : List Event) :
    ∃ ext : List Event, (getLLMDecision env ns deploymentYaml reason trace).2 = trace ++ ext ∧
      ext.filter isPodsGet = [] := by
  refine ⟨[Event.createChatCompletion openaiBaseURL chatModel personaPrompt
    (userPrompt reason deploymentYaml)], ?_, by simp [isPodsGet]⟩
  simp only [getLLMDecision, NewOpenAIClient, SendMessage]
  cases env.createChatCompletion trace openaiBaseURL chatModel personaPrompt
    (userPrompt reason deploymentYaml) with
  | error err => rfl
  | ok choices =>
    cases choices with
    | nil => rfl
    | cons choice others =>
      simp only []
      split
      · rfl
      · split <;> rfl

theorem getDeploymentYAML_trace (env : Env) (ns podName : String) (trace : List Event) :
    ∃ ext : List Event,
      (getDeploymentYAML env ns podName trace).2 = trace ++ Event.podsGet ns podName :: ext ∧
      ext.filter isPodsGet = [] := by
  unfold getDeploymentYAML
  simp only []
  split
  · exact ⟨[], rfl, rfl⟩
  · split
    · exact ⟨[], rfl, rfl⟩
    · split
      · exact ⟨_, by simp only [List.append_assoc]; rfl, by simp [isPodsGet]⟩
      · split
        · exact ⟨_, by simp only [List.append_assoc]; rfl, by simp [isPodsGet]⟩
        · split
          · exact ⟨_, by simp only [List.append_assoc]; rfl, by simp [isPodsGet]⟩
          · split
            · exact ⟨_, by simp only [List.append_assoc]; rfl, by simp [isPodsGet]⟩
            · exact ⟨_, by simp only [List.append_assoc]; rfl, by simp [isPodsGet]⟩

theorem alertPipeline_trace (env : Env) (a : Alert) (trace : List Event) :
    ∃ ext : List Event, (alertPipeline env a trace).2 = trace ++ podsGetOf a :: ext ∧
      ext.filter isPodsGet = [] := by
  obtain ⟨e1, he1, hn1⟩ := getDeploymentYAML_trace env (mapIndex a.labels "namespace")
    (mapIndex a.labels "pod") trace
  unfold alertPipeline
  split
  · rename_i err resolved hres
    refine ⟨e1, ?_, hn1⟩
    rw [hres] at he1
    exact he1
  · rename_i yamlData deploymentName resolved hres
    rw [hres] at he1
    obtain ⟨e2, he2, hn2⟩ := getLLMDecision_trace env (mapIndex a.labels "namespace") yamlData
      (mapIndex a.annotations "description") resolved
    split
    · rename_i err classified hcls
      rw [hcls] at he2
      refine ⟨e1 ++ e2, ?_, by simp [hn1, hn2]⟩
      simp only at he1 he2
      rw [he2, he1]
      simp [podsGetOf]
    · rename_i decision patchYaml classified hcls
      rw [hcls] at he2
      obtain ⟨e3, he3, hn3⟩ := executeAction_trace env (mapIndex a.labels "namespace")
        (mapIndex a.labels "pod") deploymentName decision patchYaml classified
      refine ⟨e1 ++ e2 ++ e3, ?_, by simp [hn1, hn2, hn3]⟩
      simp only at he1 he2
      rw [he3, he2, he1]
      simp [podsGetOf]

theorem isolatedBatch_pod_reads (env : Env) (alerts : List Alert) :
    ∀ trace : List Event, ∃ ext : List Event,
      (isolatedBatch env alerts trace).2 = trace ++ ext ∧
      ext.filter isPodsGet = (alerts.filter isWatched).map podsGetOf := by
  induction alerts with
  | nil =>
    intro trace
    exact ⟨[], by simp [isolatedBatch], rfl⟩
  | cons a rest ih =>
    intro trace
    by_cases hw : isWatched a = true
    · obtain ⟨e1, he1, hn1⟩ := alertPipeline_trace env a trace
      obtain ⟨e2, he2, hn2⟩ := ih (alertPipeline env a trace).2
      refine ⟨podsGetOf a :: e1 ++ e2, ?_, ?_⟩
      · simp only [isolatedBatch, hw, if_true]
        rw [he2, he1]
        simp
      · simp [List.filter_cons, hw, hn1, hn2, podsGetOf, isPodsGet]
    · obtain ⟨e2, he2, hn2⟩ := ih trace
      refine ⟨e2, ?_, ?_⟩
      · simp only [isolatedBatch, hw]
        simpa using he2
      · simp [List.filter_cons, hw, hn2]

theorem isolatedBatch_alerts (env : Env) (alerts : List Alert) :
    ∀ trace : List Event,
      (isolatedBatch env alerts trace).1.map Prod.fst = alerts.filter isWatched := by
  induction alerts with
  | nil =>
    intro trace
    simp [isolatedBatch]
  | cons a rest ih =>
    intro trace
    by_cases hw : isWatched a = true
    · simp [isolatedBatch, hw, List.filter_cons, ih]
    · simp [isolatedBatch, hw, List.filter_cons, ih]

theorem processAlerts_cons_watched (env : Env) (a : Alert) (rest : List Alert)
    (trace : List Event) (hw : isWatched a = true) :
    processAlerts env (a :: rest) trace =
      match alertPipeline env a trace with
      | (.resolutionFailed err, after) =>
        (.fatal ("Failed to get Deployment YAML: " ++ err), after)
      | (.classificationFailed err, after) =>
        (.fatal ("Failed to get LLM decision: " ++ err), after)
      | (.executed _ _ _, after) => processAlerts env rest after := by
  simp only [processAlerts, hw, if_true, alertPipeline]
  split
  · rfl
  · split
    · rename_i err classified hcls
      simp [executeAction]
    · rfl

theorem processAlerts_after_executed (env : Env) (pre rest : List Alert) :
    ∀ trace : List Event,
      (isolatedBatch env pre trace).1.all (fun ao => ao.2.isExecuted) = true →
      processAlerts env (pre ++ rest) trace =
        processAlerts env rest (isolatedBatch env pre trace).2 := by
  induction pre with
  | nil =>
    intro trace _
    simp [isolatedBatch]
  | cons a pre ih =>
    intro trace hall
    by_cases hw : isWatched a = true
    · simp only [isolatedBatch, hw, if_true, List.all_cons, Bool.and_eq_true] at hall
      rw [List.cons_append, processAlerts_cons_watched env a (pre ++ rest) trace hw]
      simp only [isolatedBatch, hw, if_true]
      rw [← ih (alertPipeline env a trace).2 hall.2]
      cases hpipe : alertPipeline env a trace with
      | mk outcome after =>
        rw [hpipe] at hall
        cases outcome with
        | resolutionFailed err => simp [PipelineOutcome.isExecuted] at hall
        | classificationFailed err => simp [PipelineOutcome.isExecuted] at hall
        | executed intent payload result => rfl
    · have hall2 : (isolatedBatch env pre trace).1.all (fun ao => ao.2.isExecuted) = true := by
        simpa [isolatedBatch, hw] using hall
      have hstep : processAlerts env (a :: (pre ++ rest)) trace =
          processAlerts env (pre ++ rest) trace := by
        simp [processAlerts, hw]
      rw [List.cons_append, hstep, ih trace hall2]
      simp [isolatedBatch, hw]

/-- C9 as the code has it, for one pass of `agentLoop` over the batch `alerts` the poll
returned, compared with the batch of isolated pipelines run from the same trace.
Failures of execution are contained: when every pipeline of the batch reaches `executeAction`
(ownership resolution and classification succeed where the run attempts them), then whatever
the calls of `executeAction` return, the pass ends with `return nil` and has made exactly the
calls of the isolated batch, so every watched alert was resolved, classified and executed, in
order; the pod reads in the trace are those of the watched alerts.
Failures of resolution and classification are not contained: when the pipelines of the alerts
before a watched alert all reach `executeAction` and its own pipeline fails in resolution or
in classification, the pass ends in `log.Fatalf` at the trace that pipeline left, whatever
alerts come after it. -/
theorem agentLoopBody_failure_policy (env : Env) (trace polled : List Event)
    (alerts : List Alert)
    (hpoll : queryPrometheusAlerts env trace = (.ok alerts, polled)) :
    ((isolatedBatch env alerts polled).1.all (fun ao => ao.2.isExecuted) = true →
      agentLoopBody env trace = (.returned, (isolatedBatch env alerts polled).2) ∧
      (isolatedBatch env alerts polled).1.map Prod.fst = alerts.filter isWatched ∧
      ∃ ext : List Event, (isolatedBatch env alerts polled).2 = polled ++ ext ∧
        ext.filter isPodsGet = (alerts.filter isWatched).map podsGetOf) ∧
    (∀ (pre post : List Alert) (a : Alert) (err : String),
      alerts = pre ++ a :: post → isWatched a = true →
      (isolatedBatch env pre polled).1.all (fun ao => ao.2.isExecuted) = true →
      ((alertPipeline env a (isolatedBatch env pre polled).2).1 = .resolutionFailed err →
        agentLoopBody env trace =
          (.exited ("Failed to get Deployment YAML: " ++ err),
            (alertPipeline env a (isolatedBatch env pre polled).2).2)) ∧
      ((alertPipeline env a (isolatedBatch env pre polled).2).1 = .classificationFailed err →
        agentLoopBody env trace =
          (.exited ("Failed to get LLM decision: " ++ err),
            (alertPipeline env a (isolatedBatch env pre polled).2).2))) := by
  constructor
  · intro hall
    have hrun := processAlerts_after_executed env alerts [] polled hall
    rw [List.append_nil] at hrun
    refine ⟨?_, isolatedBatch_alerts env alerts polled, isolatedBatch_pod_reads env alerts polled⟩
    simp [agentLoopBody, hpoll, hrun, processAlerts]
  · intro pre post a err hsplit hw hall
    have hrun := processAlerts_after_executed env pre (a :: post) polled hall
    rw [← hsplit, processAlerts_cons_watched env a post _ hw] at hrun
    constructor
    · intro hfail
      cases hpipe : alertPipeline env a (isolatedBatch env pre polled).2 with
      | mk outcome after =>
        rw [hpipe] at hfail hrun
        simp only at hfail
        subst hfail
        simp [agentLoopBody, hpoll, hrun]
    · intro hfail
      cases hpipe : alertPipeline env a (isolatedBatch env pre polled).2 with
      | mk outcome after =>
        rw [hpipe] at hfail hrun
        simp only at hfail
        subst hfail
        simp [agentLoopBody, hpoll, hrun]

theorem agentLoopBody_failure_policy_witness :
    (isolatedBatch rememberingEnv [alertP1, alertP2]
        [Event.httpRequest "GET" (prometheusURL ++ "/api/v1/alerts") ""]).1 =
      [(alertP1, .executed "RESTART" "重启了" (some "pods \"p1\" is forbidden")),
        (alertP2, .executed "RESTART" "重启了" none)] ∧
    (isolatedBatch rememberingEnv [alertP1, alertP2]
        [Event.httpRequest "GET" (prometheusURL ++ "/api/v1/alerts") ""]).2 =
      [Event.httpRequest "GET" (prometheusURL ++ "/api/v1/alerts") "",
        Event.podsGet "ns1" "p1", Event.replicaSetsGet "ns1" "dep1-7d9f",
        Event.deploymentsGet "ns1" "dep1",
        Event.createChatCompletion openaiBaseURL chatModel personaPrompt
          (userPrompt "back-off restarting failed container" "kind: Deployment\n"),
        Event.podsDelete "ns1" "p1",
        Event.podsGet "ns1" "p2", Event.replicaSetsGet "ns1" "dep1-7d9f",
        Event.deploymentsGet "ns1" "dep1",
        Event.createChatCompletion openaiBaseURL chatModel personaPrompt
          (userPrompt "container killed" "kind: Deployment\n"),
        Event.podsDelete "ns1" "p2"] ∧
    (agentLoopBody rememberingEnv [] =
        (.returned, (isolatedBatch rememberingEnv [alertP1, alertP2]
          [Event.httpRequest "GET" (prometheusURL ++ "/api/v1/alerts") ""]).2) ∧
      (isolatedBatch rememberingEnv [alertP1, alertP2]
          [Event.httpRequest "GET" (prometheusURL ++ "/api/v1/alerts") ""]).1.map Prod.fst =
        [alertP1, alertP2].filter isWatched ∧
      ∃ ext : List Event,
        (isolatedBatch rememberingEnv [alertP1, alertP2]
          [Event.httpRequest "GET" (prometheusURL ++ "/api/v1/alerts") ""]).2 =
          [Event.httpRequest "GET" (prometheusURL ++ "/api/v1/alerts") ""] ++ ext ∧
        ext.filter isPodsGet = ([alertP1, alertP2].filter isWatched).map podsGetOf) ∧
    agentLoopBody podUnreadableEnv [] =
      (.exited ("Failed to get Deployment YAML: " ++
          "failed to get pod p1: pods \"p1\" not found"),
        (alertPipeline podUnreadableEnv alertP1
          (isolatedBatch podUnreadableEnv []
            [Event.httpRequest "GET" (prometheusURL ++ "/api/v1/alerts") ""]).2).2) :=
  ⟨rfl, rfl,
    (agentLoopBody_failure_policy rememberingEnv []
      [Event.httpRequest "GET" (prometheusURL ++ "/api/v1/alerts") ""] [alertP1, alertP2]
      rfl).1 rfl,
    ((agentLoopBody_failure_policy podUnreadableEnv []
      [Event.httpRequest "GET" (prometheusURL ++ "/api/v1/alerts") ""] [alertP1, alertP2]
      rfl).2 [] [alertP2] alertP1 "failed to get pod p1: pods \"p1\" not found"
      rfl rfl rfl).1 rfl⟩

/-- The `return nil` at the end of the body ends `agentLoop` after the first poll that
succeeds: here one with no alert. -/
theorem agentLoop_returns_after_first_poll (env : Env) (fuel : Nat)
    (trace polled : List Event)
    (hpoll : queryPrometheusAlerts env trace = (.ok [], polled)) :
    agentLoop env (fuel + 1) trace = (some .returned, polled) := by
  simp [agentLoop, agentLoopBody, hpoll, processAlerts]

/-- C9, refuted at the batch `alertP1`, `alertP2`, both on the watch-list. When the pod of
`alertP1` cannot be read, or when the oracle is down, the pass ends in `log.Fatalf`: the
process exits and no call is ever made for `alertP2`. -/
theorem agentLoopBody_pipeline_failure_exits :
    (isWatched alertP1 = true ∧ isWatched alertP2 = true) ∧
      (queryPrometheusAlerts podUnreadableEnv []).1 = .ok [alertP1, alertP2] ∧
      agentLoopBody podUnreadableEnv [] =
        (.exited "Failed to get Deployment YAML: failed to get pod p1: pods \"p1\" not found",
          [Event.httpRequest "GET" (prometheusURL ++ "/api/v1/alerts") "",
            Event.podsGet "ns1" "p1"]) ∧
      podsGetOf alertP2 ∉ (agentLoopBody podUnreadableEnv []).2 ∧
      (queryPrometheusAlerts oracleDownEnv []).1 = .ok [alertP1, alertP2] ∧
      agentLoopBody oracleDownEnv [] =
        (.exited "Failed to get LLM decision: connection refused",
          [Event.httpRequest "GET" (prometheusURL ++ "/api/v1/alerts") "",
            Event.podsGet "ns1" "p1", Event.replicaSetsGet "ns1" "dep1-7d9f",
            Event.deploymentsGet "ns1" "dep1",
            Event.createChatCompletion openaiBaseURL chatModel personaPrompt
              (userPrompt "back-off restarting failed container" "kind: Deployment\n")]) ∧
      podsGetOf alertP2 ∉ (agentLoopBody oracleDownEnv []).2 := by
  exact ⟨by decide, rfl, rfl, by decide, rfl, rfl, by decide⟩

end SreAgent
